import Mathlib

/-!
Shallow embedding of `src/packages/api/normalize.ts` (the schema-drift
normalization core: source classifier, four shape-specific normalizers, and
the consistency validator), together with theorems settling the frozen
claims about its specification.

Modelling conventions:
* JavaScript numbers are modelled as exact rationals extended with `NaN` and
  signed infinity (`JsNum`); IEEE double rounding is not modelled, so all
  finite arithmetic is exact.
* Raw untyped JSON-like records are association lists of `RawVal`s.
* The unsound `as SourceXEntry` casts of the TypeScript code are modelled by
  partial cast functions returning `Option`: a raw record that does not
  conform to the declared source interface yields `none` for that record.
-/

namespace Nutrition

/-- A JavaScript number: an exact rational, `NaN`, or a signed infinity
(`inf true` is `+Infinity`, `inf false` is `-Infinity`). -/
inductive JsNum where
  | fin : ℚ → JsNum
  | nan : JsNum
  | inf : Bool → JsNum
deriving DecidableEq

namespace JsNum

/-- JS `isFinite` on a number (`NaN` and the infinities are not finite). -/
def isFiniteJ : JsNum → Bool
  | fin _ => true
  | nan => false
  | inf _ => false

/-- JS unary negation. -/
def jneg : JsNum → JsNum
  | fin q => fin (-q)
  | nan => nan
  | inf p => inf (!p)

/-- JS addition: `NaN` is absorbing, infinities of opposite sign give `NaN`. -/
def jadd : JsNum → JsNum → JsNum
  | nan, _ => nan
  | _, nan => nan
  | fin a, fin b => fin (a + b)
  | inf p, fin _ => inf p
  | fin _, inf p => inf p
  | inf p, inf q => if p = q then inf p else nan

/-- JS subtraction, `a - b = a + (-b)`. -/
def jsub (a b : JsNum) : JsNum := jadd a (jneg b)

/-- JS multiplication: `NaN` is absorbing, `0 * Infinity = NaN`, signs of
infinities multiply. -/
def jmul : JsNum → JsNum → JsNum
  | nan, _ => nan
  | _, nan => nan
  | fin a, fin b => fin (a * b)
  | inf p, fin b => if b = 0 then nan else if 0 < b then inf p else inf (!p)
  | fin a, inf p => if a = 0 then nan else if 0 < a then inf p else inf (!p)
  | inf p, inf q => inf (p = q)

/-- JS `Math.abs`. -/
def jabs : JsNum → JsNum
  | fin q => fin |q|
  | nan => nan
  | inf _ => inf true

/-- JS division by the literal constant `3` (the only division the source
performs). -/
def jdiv3 : JsNum → JsNum
  | fin q => fin (q / 3)
  | nan => nan
  | inf p => inf p

/-- JS `<=` comparison; any comparison involving `NaN` is `false`. -/
def jle : JsNum → JsNum → Bool
  | nan, _ => false
  | _, nan => false
  | fin a, fin b => decide (a ≤ b)
  | inf p, fin _ => !p
  | fin _, inf p => p
  | inf p, inf q => !p || q

/-- JS `<` comparison; any comparison involving `NaN` is `false`. -/
def jlt : JsNum → JsNum → Bool
  | nan, _ => false
  | _, nan => false
  | fin a, fin b => decide (a < b)
  | inf p, fin _ => !p
  | fin _, inf p => p
  | inf p, inf q => !p && q

/-- JS `>=` comparison. -/
def jge (a b : JsNum) : Bool := jle b a

end JsNum

open JsNum

/-- A JavaScript primitive value as handled by the coercion helpers
(`toNumber`, `toNumberOrNull`) and truthiness tests of the source. -/
inductive JsVal where
  | str : String → JsVal
  | num : JsNum → JsVal
  | null : JsVal
  | undef : JsVal
deriving DecidableEq

/-- JS `typeof` on a primitive value. -/
def jsTypeof : JsVal → String
  | .str _ => "string"
  | .num _ => "number"
  | .null => "object"
  | .undef => "undefined"

/-- JS `typeof (+v)`: unary plus coerces any of the values above to a JS
number (possibly `NaN`), and `typeof` of any JS number — `NaN` included —
is the string `"number"`, so this is constantly `"number"`. -/
def typeofUnaryPlus (_ : JsVal) : String := "number"

/-- JS truthiness of a primitive value (`!v` in the source negates this):
`null`, `undefined`, the empty string, `0` and `NaN` are falsy. -/
def jsTruthy : JsVal → Bool
  | .str s => s ≠ ""
  | .num (JsNum.fin q) => q ≠ 0
  | .num JsNum.nan => false
  | .num (JsNum.inf _) => true
  | .null => false
  | .undef => false

/-- Model of JS `String.prototype.toLowerCase`: lowercase each character
(the sources only ever lowercase ASCII nutrient keys and unit names). -/
def jsToLowerCase (s : String) : String :=
  String.mk (s.data.map Char.toLower)

/-- Digit list to natural number (most significant first). -/
def digitsToNat (ds : List Char) : Nat :=
  ds.foldl (fun n c => 10 * n + (c.toNat - '0'.toNat)) 0

/-- Value of an integer digit part plus a fractional digit part, exactly. -/
def decValue (intDs fracDs : List Char) : ℚ :=
  (digitsToNat intDs : ℚ) + (digitsToNat fracDs : ℚ) / (10 : ℚ) ^ fracDs.length

/-- Split a leading `\d+(\.\d+)?` token off a character list: returns the
integer digits, the fractional digits (empty when the optional group does
not participate), and the unconsumed rest. `none` when no leading digit. -/
def numTokenSplit (cs : List Char) : Option ((List Char × List Char) × List Char) :=
  let ds := cs.takeWhile Char.isDigit
  if ds.isEmpty then none
  else
    let rest := cs.drop ds.length
    match rest with
    | '.' :: t =>
      let fs := t.takeWhile Char.isDigit
      if fs.isEmpty then some ((ds, []), rest)
      else some ((ds, fs), t.drop fs.length)
    | _ => some ((ds, []), rest)

/-- Exponent part accepted by JS `parseFloat` after the mantissa:
`[eE][+-]?\d+`; contributes exponent `0` when absent or malformed. -/
def expValue : List Char → Int
  | c :: t =>
    if c = 'e' ∨ c = 'E' then
      let (eneg, t1) : Bool × List Char :=
        match t with
        | '-' :: u => (true, u)
        | '+' :: u => (false, u)
        | _ => (false, t)
      let eds := t1.takeWhile Char.isDigit
      if eds.isEmpty then 0
      else if eneg then -(digitsToNat eds : Int) else (digitsToNat eds : Int)
    else 0
  | [] => 0

/-- Model of JS `parseFloat`: skip leading whitespace, optional sign,
`Infinity` literal or decimal mantissa with optional exponent, parsing the
longest valid prefix; `none` models a `NaN` result. -/
def parseFloatJs (s : String) : Option JsNum :=
  let cs := s.data.dropWhile Char.isWhitespace
  let (neg, cs1) : Bool × List Char :=
    match cs with
    | '-' :: t => (true, t)
    | '+' :: t => (false, t)
    | _ => (false, cs)
  if "Infinity".data.isPrefixOf cs1 then some (JsNum.inf (!neg))
  else
    let intDs := cs1.takeWhile Char.isDigit
    let rest1 := cs1.drop intDs.length
    let (fracDs, rest2) : List Char × List Char :=
      match rest1 with
      | '.' :: t => (t.takeWhile Char.isDigit, t.drop (t.takeWhile Char.isDigit).length)
      | _ => ([], rest1)
    if intDs.isEmpty && fracDs.isEmpty then none
    else
      let mant : ℚ := decValue intDs fracDs
      let e : Int := expValue rest2
      let scaled : ℚ := if 0 ≤ e then mant * (10 : ℚ) ^ e.toNat else mant / (10 : ℚ) ^ (-e).toNat
      some (JsNum.fin (if neg then -scaled else scaled))

/-- Function `toNumber` of the source: string-to-number with `null`/`undefined` → `0`
and a `NaN` parse → `0`. -/
def toNumber : JsVal → JsNum
  | .null => JsNum.fin 0
  | .undef => JsNum.fin 0
  | .num n => n
  | .str s =>
    match parseFloatJs s with
    | none => JsNum.fin 0
    | some n => n

/-- Function `toNumberOrNull` of the source: string-to-number with `null`/`undefined`
→ `null` and a `NaN` parse → `null`. -/
def toNumberOrNull : JsVal → Option JsNum
  | .null => none
  | .undef => none
  | .num n => some n
  | .str s =>
    match parseFloatJs s with
    | none => none
    | some n => some n

/-- A raw untyped JSON-like value, as received by the classifier. -/
inductive RawVal where
  | str : String → RawVal
  | num : JsNum → RawVal
  | bool : Bool → RawVal
  | null : RawVal
  | undef : RawVal
  | arr : List RawVal → RawVal
  | obj : List (String × RawVal) → RawVal

/-- A raw untyped record: an object seen as an association list. -/
abbrev RawRecord := List (String × RawVal)

/-- The keys of `NormalizedEntry` (`keyof NormalizedEntry`); the issues
lists hold values of this type. -/
inductive Field where
  | id | timestamp | foodName | serving | macros | calories | metadata | issues
deriving DecidableEq

/-- The `serving` sub-record of a canonical entry. -/
structure Serving where
  amount : JsNum
  unit : String
deriving DecidableEq

/-- The `macros` sub-record of a canonical entry. -/
structure Macros where
  protein : JsNum
  carbs : JsNum
  fat : JsNum
deriving DecidableEq

/-- The open `metadata` bag: source-specific extra attributes. -/
abbrev Metadata := List (String × RawVal)

/-- The `issues` object: each list is present only when non-empty. -/
structure IssuesObj where
  invalid : Option (List Field)
  unknown : Option (List Field)
  inconsistent : Option (List Field)
deriving DecidableEq

/-- Model of `Omit<NormalizedEntry, issues>`: a canonical entry before (or
stripped of) validation annotations. `calories = none` models `null`. -/
structure CoreEntry where
  id : String
  timestamp : String
  foodName : String
  serving : Serving
  macros : Macros
  calories : Option JsNum
  metadata : Option Metadata

/-- The canonical `NormalizedEntry`; `issues = none` models an absent
`issues` key. -/
structure NormalizedEntry where
  id : String
  timestamp : String
  foodName : String
  serving : Serving
  macros : Macros
  calories : Option JsNum
  metadata : Option Metadata
  issues : Option IssuesObj

/-- Strip the `issues` annotations from a normalized entry, recovering the
underlying canonical record. -/
def coreOf (r : NormalizedEntry) : CoreEntry :=
  ⟨r.id, r.timestamp, r.foodName, r.serving, r.macros, r.calories, r.metadata⟩

/-- The `invalid` findings list of a record (empty when absent). -/
def invalidOf (r : NormalizedEntry) : List Field :=
  match r.issues with
  | none => []
  | some i => i.invalid.getD []

/-- The `unknown` findings list of a record (empty when absent). -/
def unknownOf (r : NormalizedEntry) : List Field :=
  match r.issues with
  | none => []
  | some i => i.unknown.getD []

/-- The `inconsistent` findings list of a record (empty when absent). -/
def inconsistentOf (r : NormalizedEntry) : List Field :=
  match r.issues with
  | none => []
  | some i => i.inconsistent.getD []

/-- Constant `VALID_SERVING_UNITS` of the source. -/
def VALID_SERVING_UNITS : List String := ["ml", "g", "tbsp"]

/-- Function `isValidServingUnit`: membership of the lowercased unit in the fixed
list. -/
def isValidServingUnit (unit : String) : Bool :=
  VALID_SERVING_UNITS.contains (jsToLowerCase unit)

/-- Function `calcCalories`: the Atwater 4-4-9 approximation
`(p * 4) + (c * 4) + (f * 9)`. -/
def calcCalories (p c f : JsNum) : JsNum :=
  jadd (jadd (jmul p (JsNum.fin 4)) (jmul c (JsNum.fin 4))) (jmul f (JsNum.fin 9))

/-- Function `validateCalories`: `false` when `givenCalories` is not a number
(`none` models `undefined`/`null`); otherwise
`Math.abs(calc)/3 >= Math.abs(Math.abs(calc) - Math.abs(given))`. -/
def validateCalories (givenCalories : Option JsNum) (p c f : JsNum) : Bool :=
  match givenCalories with
  | none => false
  | some g =>
    let calculatedCalories := calcCalories p c f
    jge (jdiv3 (jabs calculatedCalories))
      (jabs (jsub (jabs calculatedCalories) (jabs g)))

/-- The `invalid` list accumulated by `validateEntry`, in push order:
serving-unit check, calorie non-negativity (only when calories is a
number), macro non-negativity, serving-amount check. -/
def invalidChecks (entry : CoreEntry) : List Field :=
  (if !isValidServingUnit entry.serving.unit then [Field.serving] else [])
  ++ (match entry.calories with
      | some c => if jlt c (JsNum.fin 0) then [Field.calories] else []
      | none => [])
  ++ (if jlt entry.macros.protein (JsNum.fin 0) || jlt entry.macros.carbs (JsNum.fin 0)
        || jlt entry.macros.fat (JsNum.fin 0) then [Field.macros] else [])
  ++ (if jle entry.serving.amount (JsNum.fin 0) || !isFiniteJ entry.serving.amount
      then [Field.serving] else [])

/-- The `inconsistent` list accumulated by `validateEntry`: only the
calorie/macro consistency check, guarded by `typeof calories === "number"`. -/
def inconsistentChecks (entry : CoreEntry) : List Field :=
  match entry.calories with
  | some c =>
    if !validateCalories (some c) entry.macros.protein entry.macros.carbs entry.macros.fat
    then [Field.calories] else []
  | none => []

/-- Assemble the `issues` object: each sub-list only when non-empty, the
whole object only when some sub-list is non-empty. -/
def mkIssues (invalid unknown inconsistent : List Field) : Option IssuesObj :=
  if invalid.isEmpty && unknown.isEmpty && inconsistent.isEmpty then none
  else some
    { invalid := if invalid.isEmpty then none else some invalid
      unknown := if unknown.isEmpty then none else some unknown
      inconsistent := if inconsistent.isEmpty then none else some inconsistent }

/-- Function `validateEntry`: run the checks of the validator over a canonical record and
its preliminary `unknown` list, attaching the assembled issues; all other
fields are spread through unchanged. -/
def validateEntry (entry : CoreEntry) (unknownFields : List Field) : NormalizedEntry :=
  { id := entry.id
    timestamp := entry.timestamp
    foodName := entry.foodName
    serving := entry.serving
    macros := entry.macros
    calories := entry.calories
    metadata := entry.metadata
    issues := mkIssues (invalidChecks entry) unknownFields (inconsistentChecks entry) }

/-- Search a character list for the first match of `\d+(\.\d+)?` (the
fallback regex of `parseServingSize`): returns the characters before the
match, the matched integer/fraction digits, and the characters after. -/
def numSearch : List Char → Option (List Char × (List Char × List Char) × List Char)
  | [] => none
  | c :: t =>
    match numTokenSplit (c :: t) with
    | some ((intDs, fracDs), rest) => some ([], (intDs, fracDs), rest)
    | none => (numSearch t).map (fun r => (c :: r.1, r.2.1, r.2.2))

/-- Function `parseServingSize`: match `^(\d+(\.\d+)?)\s*(.+)$` (the dot is modelled
as matching any character; line-terminator subtleties of the JS dot are not
modelled); on failure fall back to extracting the first numeric substring
and treating the remainder (first occurrence removed, trimmed, defaulting
to `"unit"`) as the unit; with no numeric substring at all, amount `1` and
the whole string as unit. -/
def parseServingSize (servingSize : String) : Serving :=
  match numTokenSplit servingSize.data with
  | some ((intDs, fracDs), rest) =>
    if !rest.isEmpty then
      { amount := JsNum.fin (decValue intDs fracDs), unit := (String.mk rest).trim }
    else
      -- the leading number consumed the whole string: regex 1 fails, use the
      -- fallback, whose first numeric substring is that same leading number
      { amount := JsNum.fin (decValue intDs fracDs), unit := "unit" }
  | none =>
    match numSearch servingSize.data with
    | some (before, (intDs, fracDs), after) =>
      let unitStr := (String.mk (before ++ after)).trim
      { amount := JsNum.fin (decValue intDs fracDs)
        unit := if unitStr = "" then "unit" else unitStr }
    | none => { amount := JsNum.fin 1, unit := servingSize }

/-- Check `Object.values(entry.macros).some(val => typeof (+val) !== "number")`,
the numeric-safety check shared by the Shape A, B and D normalizers. -/
def someNonNumericAfterPlus (vals : List JsVal) : Bool :=
  vals.any (fun val => typeofUnaryPlus val != "number")

/-- The gram-suffixed `macros` sub-record shared by `SourceAEntry` and
`SourceDEntry`. -/
structure GramMacros where
  protein_g : JsNum
  carbs_g : JsNum
  fat_g : JsNum

/-- List `Object.values` of a `GramMacros`, in insertion order. -/
def GramMacros.values (m : GramMacros) : List JsVal :=
  [JsVal.num m.protein_g, JsVal.num m.carbs_g, JsVal.num m.fat_g]

/-- Interface `SourceAEntry`. -/
structure SourceAEntry where
  entryId : String
  timestamp : String
  foodName : String
  serving : Serving
  macros : GramMacros
  calories_kcal : JsNum

/-- Function `normalizeSourceA`. -/
def normalizeSourceA (entry : SourceAEntry) : NormalizedEntry :=
  let unknownFields : List Field :=
    (if someNonNumericAfterPlus entry.macros.values then [Field.macros] else [])
    ++ (if jsTypeof (JsVal.num entry.calories_kcal) != "number"
        then [Field.calories] else [])
  validateEntry
    { id := entry.entryId
      timestamp := entry.timestamp
      foodName := entry.foodName
      serving := entry.serving
      macros :=
        { protein := entry.macros.protein_g
          carbs := entry.macros.carbs_g
          fat := entry.macros.fat_g }
      calories := some entry.calories_kcal
      metadata := none }
    unknownFields

/-- The `macros` sub-record of `SourceBEntry` (three strings). -/
structure SourceBMacros where
  protein : String
  carbs : String
  fat : String

/-- Interface `SourceBEntry`; `calories` is a `JsVal` so that the declared
`string | null` (and an absent property, read as `undefined`) are all
representable. -/
structure SourceBEntry where
  id : String
  loggedAt : String
  name : String
  servingSize : String
  macros : SourceBMacros
  calories : JsVal
  extra : Option RawRecord

/-- Function `normalizeSourceB`. -/
def normalizeSourceB (entry : SourceBEntry) : NormalizedEntry :=
  let serving := parseServingSize entry.servingSize
  let unknownFields : List Field :=
    (if someNonNumericAfterPlus
        [JsVal.str entry.macros.protein, JsVal.str entry.macros.carbs,
         JsVal.str entry.macros.fat]
     then [Field.macros] else [])
    ++ (if !jsTruthy entry.calories then [Field.calories] else [])
  validateEntry
    { id := entry.id
      timestamp := entry.loggedAt
      foodName := entry.name
      serving := serving
      macros :=
        { protein := toNumber (JsVal.str entry.macros.protein)
          carbs := toNumber (JsVal.str entry.macros.carbs)
          fat := toNumber (JsVal.str entry.macros.fat) }
      calories := toNumberOrNull entry.calories
      metadata := match entry.extra with
        | some e => some [("extra", RawVal.obj e)]
        | none => none }
    unknownFields

/-- One element of the `nutrients` array of `SourceCEntry`. -/
structure Nutrient where
  key : String
  value : JsNum
  unit : String

/-- The nested `item` of `SourceCEntry`. -/
structure SourceCItem where
  label : String
  brand : Option String

/-- Interface `SourceCEntry`. -/
structure SourceCEntry where
  source : Option String
  item : SourceCItem
  logged_at : String
  serving_grams : JsNum
  nutrients : List Nutrient

/-- Accumulator of the nutrient-processing loop of `normalizeSourceC`. -/
structure CState where
  macros : Macros
  calories_kcal : Option JsNum
  hasProtein : Bool
  hasCarbs : Bool
  hasFat : Bool
  hasEnergy : Bool

/-- One iteration of the nutrient loop: match the lowercased key and
overwrite the corresponding accumulator slot (so the last matching entry
wins on duplicates). -/
def processNutrient (st : CState) (nutrient : Nutrient) : CState :=
  let key := jsToLowerCase nutrient.key
  if key = "protein" then
    { st with macros := { st.macros with protein := nutrient.value }, hasProtein := true }
  else if key = "carbohydrate" ∨ key = "carbs" then
    { st with macros := { st.macros with carbs := nutrient.value }, hasCarbs := true }
  else if key = "fat" then
    { st with macros := { st.macros with fat := nutrient.value }, hasFat := true }
  else if key = "energy" then
    { st with calories_kcal := some nutrient.value, hasEnergy := true }
  else st

/-- The last entry of a nutrient list whose lowercased key satisfies `p`,
if any: the reference point for the last-matching-entry-wins behaviour of
the nutrient loop. -/
def lastMatchingNutrient (p : String → Bool) (ns : List Nutrient) : Option Nutrient :=
  ns.reverse.find? (fun n => p (jsToLowerCase n.key))

/-- Sanitizer `replace(/[^a-zA-Z0-9-]/g, "-")` applied to the synthesized id. -/
def sanitizeId (s : String) : String :=
  String.mk (s.data.map (fun c =>
    if c.isAlpha || c.isDigit || c = '-' then c else '-'))

/-- Function `normalizeSourceC`. -/
def normalizeSourceC (entry : SourceCEntry) : NormalizedEntry :=
  let st := entry.nutrients.foldl processNutrient
    { macros := { protein := JsNum.fin 0, carbs := JsNum.fin 0, fat := JsNum.fin 0 }
      calories_kcal := none
      hasProtein := false, hasCarbs := false, hasFat := false, hasEnergy := false }
  let unknownFields : List Field :=
    (if [st.hasProtein, st.hasCarbs, st.hasFat].any (fun val => !val)
     then [Field.macros] else [])
    ++ (if [st.hasEnergy].any (fun val => !val) then [Field.calories] else [])
  let metadata : Metadata :=
    (match entry.source with
     | some s => if s ≠ "" then [("source", RawVal.str s)] else []
     | none => [])
    ++ (match entry.item.brand with
        | some b => if b ≠ "" then [("brand", RawVal.str b)] else []
        | none => [])
  validateEntry
    { id := sanitizeId ("c-" ++ entry.logged_at ++ "-" ++ entry.item.label)
      timestamp := entry.logged_at
      foodName := entry.item.label
      serving := { amount := entry.serving_grams, unit := "g" }
      macros := st.macros
      calories := st.calories_kcal
      metadata := if !metadata.isEmpty then some metadata else none }
    unknownFields

/-- Interface `SourceDEntry`. -/
structure SourceDEntry where
  id : String
  time : String
  food : String
  serving : Serving
  macros : GramMacros
  calories_kcal : JsNum
  macros_basis : String

/-- Function `normalizeSourceD`. -/
def normalizeSourceD (entry : SourceDEntry) : NormalizedEntry :=
  let metadata : Metadata :=
    if entry.macros_basis ≠ "" then [("macros_basis", RawVal.str entry.macros_basis)] else []
  let unknownFields : List Field :=
    (if someNonNumericAfterPlus entry.macros.values then [Field.macros] else [])
    ++ (if jsTypeof (JsVal.num entry.calories_kcal) != "number"
        then [Field.calories] else [])
  validateEntry
    { id := entry.id
      timestamp := entry.time
      foodName := entry.food
      serving := entry.serving
      macros :=
        { protein := entry.macros.protein_g
          carbs := entry.macros.carbs_g
          fat := entry.macros.fat_g }
      calories := some entry.calories_kcal
      metadata := if !metadata.isEmpty then some metadata else none }
    unknownFields

/-- Test `key in record`, the JS `in` operator, on a raw record. -/
def hasKey (r : RawRecord) (k : String) : Bool :=
  r.any (fun p => p.1 == k)

/-- Property access `record[key]` on a raw record (`none` when absent). -/
def lookupRaw (r : RawRecord) (k : String) : Option RawVal :=
  (r.find? (fun p => p.1 == k)).map (fun p => p.2)

/-- Test `typeof record[key] === "string"` for a present key. -/
def isStringVal : Option RawVal → Bool
  | some (RawVal.str _) => true
  | _ => false

/-- Test `Array.isArray(record[key])`. -/
def isArrayVal : Option RawVal → Bool
  | some (RawVal.arr _) => true
  | _ => false

/-- Shape A signature: `"entryId" in firstEntry && "foodName" in firstEntry`. -/
def sigA (r : RawRecord) : Bool :=
  hasKey r "entryId" && hasKey r "foodName"

/-- Shape B signature: `"loggedAt" in firstEntry && "servingSize" in
firstEntry && typeof firstEntry.servingSize === "string"`. -/
def sigB (r : RawRecord) : Bool :=
  hasKey r "loggedAt" && hasKey r "servingSize" && isStringVal (lookupRaw r "servingSize")

/-- Shape C signature: `"item" in firstEntry && "nutrients" in firstEntry
&& Array.isArray(firstEntry.nutrients)`. -/
def sigC (r : RawRecord) : Bool :=
  hasKey r "item" && hasKey r "nutrients" && isArrayVal (lookupRaw r "nutrients")

/-- Shape D signature: `"time" in firstEntry && "food" in firstEntry`. -/
def sigD (r : RawRecord) : Bool :=
  hasKey r "time" && hasKey r "food"

/-- The four known source shapes. -/
inductive Shape where
  | A | B | C | D
deriving DecidableEq

/-- The classification decision of `normalizeEntries` on the first record:
the signatures are tried in order A, B, C, D; `none` models the
unrecognized-shape error path. -/
def classify (firstEntry : RawRecord) : Option Shape :=
  if sigA firstEntry then some Shape.A
  else if sigB firstEntry then some Shape.B
  else if sigC firstEntry then some Shape.C
  else if sigD firstEntry then some Shape.D
  else none

/-- Read a string-valued property. -/
def getStr (r : RawRecord) (k : String) : Option String :=
  match lookupRaw r k with
  | some (RawVal.str s) => some s
  | _ => none

/-- Read a number-valued property. -/
def getNum (r : RawRecord) (k : String) : Option JsNum :=
  match lookupRaw r k with
  | some (RawVal.num n) => some n
  | _ => none

/-- Read an object-valued property. -/
def getObj (r : RawRecord) (k : String) : Option RawRecord :=
  match lookupRaw r k with
  | some (RawVal.obj o) => some o
  | _ => none

/-- Read an array-valued property. -/
def getArr (r : RawRecord) (k : String) : Option (List RawVal) :=
  match lookupRaw r k with
  | some (RawVal.arr xs) => some xs
  | _ => none

/-- Read a `{amount, unit}` serving object. -/
def castServing (r : RawRecord) : Option Serving := do
  let o ← getObj r "serving"
  let amount ← getNum o "amount"
  let unit ← getStr o "unit"
  pure { amount := amount, unit := unit }

/-- Read a `{protein_g, carbs_g, fat_g}` macros object. -/
def castGramMacros (r : RawRecord) : Option GramMacros := do
  let o ← getObj r "macros"
  let p ← getNum o "protein_g"
  let c ← getNum o "carbs_g"
  let f ← getNum o "fat_g"
  pure { protein_g := p, carbs_g := c, fat_g := f }

/-- The `as SourceAEntry` cast: `none` when the raw record does not conform
to the `SourceAEntry` interface. -/
def castA (r : RawRecord) : Option SourceAEntry := do
  let entryId ← getStr r "entryId"
  let timestamp ← getStr r "timestamp"
  let foodName ← getStr r "foodName"
  let serving ← castServing r
  let macros ← castGramMacros r
  let calories ← getNum r "calories_kcal"
  pure { entryId := entryId, timestamp := timestamp, foodName := foodName
         serving := serving, macros := macros, calories_kcal := calories }

/-- The `as SourceBEntry` cast. -/
def castB (r : RawRecord) : Option SourceBEntry := do
  let id ← getStr r "id"
  let loggedAt ← getStr r "loggedAt"
  let name ← getStr r "name"
  let servingSize ← getStr r "servingSize"
  let mo ← getObj r "macros"
  let protein ← getStr mo "protein"
  let carbs ← getStr mo "carbs"
  let fat ← getStr mo "fat"
  let calories : JsVal ←
    match lookupRaw r "calories" with
    | some (RawVal.str s) => some (JsVal.str s)
    | some RawVal.null => some JsVal.null
    | none => some JsVal.undef
    | _ => none
  let extra : Option RawRecord ←
    match lookupRaw r "extra" with
    | some (RawVal.obj o) => some (some o)
    | none => some none
    | _ => none
  pure { id := id, loggedAt := loggedAt, name := name, servingSize := servingSize
         macros := { protein := protein, carbs := carbs, fat := fat }
         calories := calories, extra := extra }

/-- Read one element of the `nutrients` array. -/
def castNutrient : RawVal → Option Nutrient
  | RawVal.obj o => do
    let key ← getStr o "key"
    let value ← getNum o "value"
    let unit ← getStr o "unit"
    pure { key := key, value := value, unit := unit }
  | _ => none

/-- The `as SourceCEntry` cast. -/
def castC (r : RawRecord) : Option SourceCEntry := do
  let source : Option String ←
    match lookupRaw r "source" with
    | some (RawVal.str s) => some (some s)
    | none => some none
    | _ => none
  let itemObj ← getObj r "item"
  let label ← getStr itemObj "label"
  let brand : Option String ←
    match lookupRaw itemObj "brand" with
    | some (RawVal.str s) => some (some s)
    | none => some none
    | _ => none
  let logged_at ← getStr r "logged_at"
  let serving_grams ← getNum r "serving_grams"
  let rawNutrients ← getArr r "nutrients"
  let nutrients ← rawNutrients.mapM castNutrient
  pure { source := source, item := { label := label, brand := brand }
         logged_at := logged_at, serving_grams := serving_grams
         nutrients := nutrients }

/-- The `as SourceDEntry` cast. -/
def castD (r : RawRecord) : Option SourceDEntry := do
  let id ← getStr r "id"
  let time ← getStr r "time"
  let food ← getStr r "food"
  let serving ← castServing r
  let macros ← castGramMacros r
  let calories ← getNum r "calories_kcal"
  let macros_basis ← getStr r "macros_basis"
  pure { id := id, time := time, food := food, serving := serving
         macros := macros, calories_kcal := calories, macros_basis := macros_basis }

/-- Normalizer `normalizeSourceA` lifted to raw records through the cast. -/
def normalizeSourceARaw (r : RawRecord) : Option NormalizedEntry :=
  (castA r).map normalizeSourceA

/-- Normalizer `normalizeSourceB` lifted to raw records through the cast. -/
def normalizeSourceBRaw (r : RawRecord) : Option NormalizedEntry :=
  (castB r).map normalizeSourceB

/-- Normalizer `normalizeSourceC` lifted to raw records through the cast. -/
def normalizeSourceCRaw (r : RawRecord) : Option NormalizedEntry :=
  (castC r).map normalizeSourceC

/-- Normalizer `normalizeSourceD` lifted to raw records through the cast. -/
def normalizeSourceDRaw (r : RawRecord) : Option NormalizedEntry :=
  (castD r).map normalizeSourceD

/-- Function `normalizeEntries`: empty input short-circuits to an empty output;
otherwise the structural signature of the first record selects the normalizer
mapped over the entire sequence; no signature matching is the
`"Unknown data source format"` error. -/
def normalizeEntries (data : List RawRecord) : Except String (List (Option NormalizedEntry)) :=
  match data with
  | [] => Except.ok []
  | firstEntry :: rest =>
    if sigA firstEntry then Except.ok ((firstEntry :: rest).map normalizeSourceARaw)
    else if sigB firstEntry then Except.ok ((firstEntry :: rest).map normalizeSourceBRaw)
    else if sigC firstEntry then Except.ok ((firstEntry :: rest).map normalizeSourceCRaw)
    else if sigD firstEntry then Except.ok ((firstEntry :: rest).map normalizeSourceDRaw)
    else Except.error "Unknown data source format"

/-- Modelled from the spec (not from the source): the classifier
condition of the spec for Shape C requires key `item` to be present with
nested `label`; this definition follows those words, to be compared with
the `sigC` of the source, which only tests presence of `item` itself. -/
def specItemHasLabel (r : RawRecord) : Bool :=
  match lookupRaw r "item" with
  | some (RawVal.obj o) => hasKey o "label"
  | _ => false

/-- Shape B record with a malformed macro string, the failing input for the
dead numeric-safety check (C2). -/
def cexShapeBMacroNA : SourceBEntry :=
  { id := "b1", loggedAt := "2024-01-01T08:00:00Z", name := "toast"
    servingSize := "2 tbsp"
    macros := { protein := "n/a", carbs := "20", fat := "5" }
    calories := JsVal.str "100", extra := none }

/-- Shape B record with a non-numeric calories string, the counterexample
input for C4. -/
def cexShapeBCaloriesNA : SourceBEntry :=
  { id := "b2", loggedAt := "2024-01-02T08:00:00Z", name := "soup"
    servingSize := "250 ml"
    macros := { protein := "10", carbs := "20", fat := "5" }
    calories := JsVal.str "n/a", extra := none }

/-- Shape C record with duplicate nutrient keys, the concrete scenario of
C5. -/
def cexShapeCDupNutrients : SourceCEntry :=
  { source := none, item := { label := "rice", brand := none }
    logged_at := "2024-01-03T12:00:00Z", serving_grams := JsNum.fin 100
    nutrients :=
      [ ⟨"protein", JsNum.fin 10, "g"⟩, ⟨"protein", JsNum.fin 12, "g"⟩
      , ⟨"carbs", JsNum.fin 20, "g"⟩, ⟨"fat", JsNum.fin 5, "g"⟩
      , ⟨"energy", JsNum.fin 300, "kcal"⟩ ] }

theorem coreOf_validateEntry (e : CoreEntry) (u : List Field) :
    coreOf (validateEntry e u) = e := rfl

theorem invalidOf_validateEntry (e : CoreEntry) (u : List Field) :
    invalidOf (validateEntry e u) = invalidChecks e := by
  simp only [invalidOf, validateEntry, mkIssues]
  by_cases hi : (invalidChecks e).isEmpty <;>
    by_cases hu : u.isEmpty <;>
    by_cases hc : (inconsistentChecks e).isEmpty <;>
    simp_all [List.isEmpty_iff]

theorem unknownOf_validateEntry (e : CoreEntry) (u : List Field) :
    unknownOf (validateEntry e u) = u := by
  simp only [unknownOf, validateEntry, mkIssues]
  by_cases hi : (invalidChecks e).isEmpty <;>
    by_cases hu : u.isEmpty <;>
    by_cases hc : (inconsistentChecks e).isEmpty <;>
    simp_all [List.isEmpty_iff]

theorem inconsistentOf_validateEntry (e : CoreEntry) (u : List Field) :
    inconsistentOf (validateEntry e u) = inconsistentChecks e := by
  simp only [inconsistentOf, validateEntry, mkIssues]
  by_cases hi : (invalidChecks e).isEmpty <;>
    by_cases hu : u.isEmpty <;>
    by_cases hc : (inconsistentChecks e).isEmpty <;>
    simp_all [List.isEmpty_iff]

theorem serving_mem_invalidChecks (e : CoreEntry) :
    Field.serving ∈ invalidChecks e ↔
      (isValidServingUnit e.serving.unit = false ∨
        (jle e.serving.amount (JsNum.fin 0) || !isFiniteJ e.serving.amount) = true) := by
  rcases hcal : e.calories with _ | c <;>
    simp only [invalidChecks, hcal] <;> split_ifs <;> simp_all

theorem hasKey_eq_isSome_lookup (r : RawRecord) (k : String) :
    hasKey r k = (lookupRaw r k).isSome := by
  induction r with
  | nil => rfl
  | cons p t ih =>
    cases hk : (p.1 == k) <;>
      simp [hasKey, lookupRaw, List.any_cons, List.find?_cons, hk]
    simpa [hasKey, lookupRaw] using ih

theorem hasKey_of_isArrayVal (r : RawRecord) (k : String)
    (h : isArrayVal (lookupRaw r k) = true) : hasKey r k = true := by
  rw [hasKey_eq_isSome_lookup]
  rcases hl : lookupRaw r k with _ | v
  · rw [hl] at h; simp [isArrayVal] at h
  · rfl

/-- C8: the validator only adds issue annotations and changes no other part
of the record: the output of `validateEntry` agrees with its input on `id`,
`timestamp`, `foodName`, `serving`, `macros`, `calories` and `metadata`; in
particular the declared calories value is never replaced by the
Atwater-computed value. -/
theorem validateEntry_frame (e : CoreEntry) (u : List Field) :
    (validateEntry e u).id = e.id ∧
    (validateEntry e u).timestamp = e.timestamp ∧
    (validateEntry e u).foodName = e.foodName ∧
    (validateEntry e u).serving = e.serving ∧
    (validateEntry e u).macros = e.macros ∧
    (validateEntry e u).calories = e.calories ∧
    (validateEntry e u).metadata = e.metadata :=
  ⟨rfl, rfl, rfl, rfl, rfl, rfl, rfl⟩

/-- C9: the validator is idempotent: running `validateEntry` a second time
over the canonical record it produced (stripped of its `issues`
annotations, with the same preliminary unknown list, and without re-running
normalization) yields the same record — in particular the same `invalid`,
`unknown` and `inconsistent` issues content — as the first run. -/
theorem validateEntry_idempotent (e : CoreEntry) (u : List Field) :
    validateEntry (coreOf (validateEntry e u)) u = validateEntry e u := by
  rw [coreOf_validateEntry]

/-- C7: for every non-empty input sequence whose first record matches none
of the four structural signatures, `normalizeEntries` raises the
unrecognized-shape error and produces no output for the batch. -/
theorem normalizeEntries_unknown_shape_error (first : RawRecord) (rest : List RawRecord)
    (hA : sigA first = false) (hB : sigB first = false)
    (hC : sigC first = false) (hD : sigD first = false) :
    normalizeEntries (first :: rest) = Except.error "Unknown data source format" := by
  simp [normalizeEntries, hA, hB, hC, hD]

/-- Witness for C7: a one-record batch whose record matches no signature is
rejected with the unrecognized-shape error. -/
theorem normalizeEntries_unknown_shape_error_witness :
    sigA [("foo", RawVal.null)] = false ∧
    normalizeEntries [[("foo", RawVal.null)]] = Except.error "Unknown data source format" :=
  ⟨by decide, normalizeEntries_unknown_shape_error [("foo", RawVal.null)] []
    (by decide) (by decide) (by decide) (by decide)⟩

/-- C6: for every canonical record whose `serving.amount` is a finite
number strictly greater than zero and whose `serving.unit` is,
case-insensitively, one of `g`, `ml`, `tbsp`, the validator produces no
`invalid` finding on the `serving` field. -/
theorem valid_serving_not_flagged (e : CoreEntry) (u : List Field) (q : ℚ)
    (hamount : e.serving.amount = JsNum.fin q) (hpos : 0 < q)
    (hunit : jsToLowerCase e.serving.unit = "g" ∨ jsToLowerCase e.serving.unit = "ml" ∨
      jsToLowerCase e.serving.unit = "tbsp") :
    Field.serving ∉ invalidOf (validateEntry e u) := by
  rw [invalidOf_validateEntry, serving_mem_invalidChecks]
  have hvalid : isValidServingUnit e.serving.unit = true := by
    unfold isValidServingUnit VALID_SERVING_UNITS
    rcases hunit with h | h | h <;> simp [h]
  have hle : jle (JsNum.fin q) (JsNum.fin 0) = false := by
    simp [jle, not_le.2 hpos]
  simp [hvalid, hamount, hle, isFiniteJ]

/-- Witness for C6: a serving of `2 tbsp` (amount `2`, unit `tbsp`) is not
flagged `invalid`. -/
theorem valid_serving_not_flagged_witness :
    (0 : ℚ) < 2 ∧
    Field.serving ∉ invalidOf (validateEntry
      { id := "w", timestamp := "t", foodName := "f"
        serving := { amount := JsNum.fin 2, unit := "tbsp" }
        macros := { protein := JsNum.fin 1, carbs := JsNum.fin 1, fat := JsNum.fin 1 }
        calories := none, metadata := none } []) :=
  ⟨by decide, valid_serving_not_flagged _ [] 2 rfl (by decide) (Or.inr (Or.inr (by decide)))⟩

/-- C10: every canonical record produced by the Shape C normalizer has
`serving.unit` equal to the literal `"g"`, so the serving-unit
check of the validator never fires on a Shape C record and its `serving` field can be
flagged `invalid` only by the amount check (non-positive or non-finite
`serving_grams`). -/
theorem shapeC_serving_invalid_only_by_amount (e : SourceCEntry) :
    (normalizeSourceC e).serving.unit = "g" ∧
    (Field.serving ∈ invalidOf (normalizeSourceC e) ↔
      (jle e.serving_grams (JsNum.fin 0) = true ∨ isFiniteJ e.serving_grams = false)) := by
  constructor
  · rfl
  · show Field.serving ∈ invalidOf (validateEntry _ _) ↔ _
    rw [invalidOf_validateEntry, serving_mem_invalidChecks]
    have hvalid : isValidServingUnit "g" = true := by decide
    simp [hvalid]

/-- C1 (amended): for every canonical record with finite macro values and a
non-null finite declared calorie value, the validator flags `calories` as
`inconsistent` exactly when `||E| - |calories|| > |E| / 3` where
`E = 4*protein + 4*carbs + 9*fat` — the absolute value of each term is
taken before differencing. -/
theorem calories_inconsistent_iff (id ts fn : String) (sv : Serving)
    (md : Option Metadata) (u : List Field) (p c f cal : ℚ) :
    Field.calories ∈ inconsistentOf (validateEntry
      { id := id, timestamp := ts, foodName := fn, serving := sv
        macros := { protein := JsNum.fin p, carbs := JsNum.fin c, fat := JsNum.fin f }
        calories := some (JsNum.fin cal), metadata := md } u) ↔
      |p * 4 + c * 4 + f * 9| / 3 < |(|p * 4 + c * 4 + f * 9| - |cal|)| := by
  rw [inconsistentOf_validateEntry]
  simp only [inconsistentChecks, validateCalories, calcCalories, JsNum.jmul, JsNum.jadd,
    JsNum.jsub, JsNum.jneg, JsNum.jabs, JsNum.jdiv3, JsNum.jge, JsNum.jle, sub_eq_add_neg]
  by_cases h : |(|p * 4 + c * 4 + f * 9| + -|cal|)| ≤ |p * 4 + c * 4 + f * 9| / 3
  · simp [h, not_lt.2 h]
  · simp [h, not_le.1 h]

/-- C1 counterexample: a record with macros `{protein: 25, carbs: 0,
fat: 0}` (expected calories `100`) and declared calories `-100` satisfies
`|E - calories| = 200 > |E|/3`, yet the validator does not flag `calories`
as `inconsistent` (it compares `||E| - |calories|| = 0` against the
tolerance), refuting the claim as stated. -/
theorem calories_inconsistent_spec_counterexample :
    Field.calories ∉ inconsistentOf (validateEntry
      { id := "x", timestamp := "t", foodName := "food"
        serving := { amount := JsNum.fin 100, unit := "g" }
        macros := { protein := JsNum.fin 25, carbs := JsNum.fin 0, fat := JsNum.fin 0 }
        calories := some (JsNum.fin (-100)), metadata := none } []) ∧
    |4 * (25 : ℚ) + 4 * 0 + 9 * 0 - (-100)| > |4 * (25 : ℚ) + 4 * 0 + 9 * 0| / 3 := by
  constructor
  · rw [inconsistentOf_validateEntry]
    simp only [inconsistentChecks, validateCalories, calcCalories, JsNum.jmul, JsNum.jadd,
      JsNum.jsub, JsNum.jneg, JsNum.jabs, JsNum.jdiv3, JsNum.jge, JsNum.jle]
    norm_num
  · norm_num

/-- C2: evaluating the Shape B normalizer at a record whose raw
`macros.protein` is the non-numeric string `"n/a"`: the value is coerced to
`0` in the canonical record, but — contrary to the claim and to the stated
intent of the check — the `macros` field is never added to the `unknown` issues
list, because `typeof (+val) !== "number"` is false even for `NaN`. -/
theorem shapeB_malformed_macro_not_flagged :
    (normalizeSourceB cexShapeBMacroNA).macros.protein = JsNum.fin 0 ∧
    Field.macros ∉ unknownOf (normalizeSourceB cexShapeBMacroNA) := by
  constructor
  · simp +decide [cexShapeBMacroNA, normalizeSourceB, toNumber, parseFloatJs,
      validateEntry, List.dropWhile, List.takeWhile]
  · simp +decide [cexShapeBMacroNA, normalizeSourceB, unknownOf_validateEntry,
      someNonNumericAfterPlus, typeofUnaryPlus, jsTruthy]

/-- C3 (amended): for every non-empty batch whose first record fails the
Shape A and Shape B signature checks, the classifier selects the Shape C
normalizer exactly when the first record has key `item` present (its
nested contents are not inspected) and `nutrients` present as a sequence;
classification inspects only the first record, and the chosen normalizer
is applied to the entire sequence. -/
theorem classify_shapeC_iff (first : RawRecord) (rest : List RawRecord)
    (hA : sigA first = false) (hB : sigB first = false) :
    (classify first = some Shape.C ↔
      (hasKey first "item" = true ∧ isArrayVal (lookupRaw first "nutrients") = true)) ∧
    (classify first = some Shape.C →
      normalizeEntries (first :: rest) = Except.ok ((first :: rest).map normalizeSourceCRaw)) := by
  have hcl : classify first =
      if sigC first then some Shape.C else if sigD first then some Shape.D else none := by
    simp [classify, hA, hB]
  have hnotC : ∀ (h : ¬ sigC first = true), ¬ classify first = some Shape.C := by
    intro h hcc
    rw [hcl, if_neg h] at hcc
    by_cases hD : sigD first = true
    · rw [if_pos hD] at hcc
      exact Shape.noConfusion (Option.some.inj hcc)
    · rw [if_neg hD] at hcc
      exact Option.noConfusion hcc
  constructor
  · by_cases hC : sigC first = true
    · have h3 := hC
      simp only [sigC, Bool.and_eq_true] at h3
      rw [hcl, if_pos hC]
      simp [h3.1.1, h3.2]
    · constructor
      · intro hcc
        exact absurd hcc (hnotC hC)
      · rintro ⟨h1, h2⟩
        exact absurd (by simp [sigC, h1, h2, hasKey_of_isArrayVal first "nutrients" h2]) hC
  · intro hcc
    have hC : sigC first = true := by
      by_contra hC
      exact hnotC hC hcc
    simp [normalizeEntries, hA, hB, hC]

/-- Witness for C3 (amended): a concrete one-record batch, failing the
Shape A and Shape B checks, on which the classification equivalence and
the whole-sequence application hold. -/
theorem classify_shapeC_iff_witness :
    sigA [("item", RawVal.obj [("label", RawVal.str "rice")]), ("nutrients", RawVal.arr [])]
        = false ∧
    ((classify [("item", RawVal.obj [("label", RawVal.str "rice")]), ("nutrients", RawVal.arr [])]
        = some Shape.C ↔
      (hasKey [("item", RawVal.obj [("label", RawVal.str "rice")]), ("nutrients", RawVal.arr [])]
          "item" = true ∧
        isArrayVal (lookupRaw
          [("item", RawVal.obj [("label", RawVal.str "rice")]), ("nutrients", RawVal.arr [])]
          "nutrients") = true)) ∧
     (classify [("item", RawVal.obj [("label", RawVal.str "rice")]), ("nutrients", RawVal.arr [])]
        = some Shape.C →
      normalizeEntries
          [[("item", RawVal.obj [("label", RawVal.str "rice")]), ("nutrients", RawVal.arr [])]] =
        Except.ok
          ([[("item", RawVal.obj [("label", RawVal.str "rice")]), ("nutrients", RawVal.arr [])]].map
            normalizeSourceCRaw))) :=
  ⟨by decide, classify_shapeC_iff _ [] (by decide) (by decide)⟩

/-- C3 counterexample: a first record whose `item` key holds `null` (so no
nested `label` exists) and whose `nutrients` is an array fails the Shape A
and Shape B checks yet is classified as Shape C, refuting the condition
of the claim that `item` be present with nested `label`. -/
theorem classify_shapeC_without_label :
    sigA [("item", RawVal.null), ("nutrients", RawVal.arr [])] = false ∧
    sigB [("item", RawVal.null), ("nutrients", RawVal.arr [])] = false ∧
    classify [("item", RawVal.null), ("nutrients", RawVal.arr [])] = some Shape.C ∧
    specItemHasLabel [("item", RawVal.null), ("nutrients", RawVal.arr [])] = false := by
  refine ⟨by decide, by decide, by decide, by decide⟩

/-- C4 (amended): for Shape B, the raw calories value is coerced with the
string-to-number-or-null conversion — so a non-numeric string, like a null
or absent value, is coerced to `null` in the canonical record — but the
`calories` field is added to the `unknown` issues list exactly when the
raw value is falsy (null, absent, or the empty string); in particular a
non-empty non-numeric string such as `"n/a"` becomes `null` without an
`unknown` flag, while a null or absent value becomes `null` and is
flagged. -/
theorem shapeB_calories_coercion_and_unknown (e : SourceBEntry) :
    (normalizeSourceB e).calories = toNumberOrNull e.calories ∧
    (Field.calories ∈ unknownOf (normalizeSourceB e) ↔ jsTruthy e.calories = false) := by
  constructor
  · rfl
  · simp only [normalizeSourceB, unknownOf_validateEntry]
    simp [someNonNumericAfterPlus, typeofUnaryPlus]

/-- C4 counterexample: a Shape B record whose calories value is the
non-numeric string `"n/a"` is coerced to `null`, but the `calories` field
is not added to the `unknown` issues list (the string is truthy), refuting
the claim as stated. -/
theorem shapeB_nonnumeric_calories_not_flagged :
    (normalizeSourceB cexShapeBCaloriesNA).calories = none ∧
    Field.calories ∉ unknownOf (normalizeSourceB cexShapeBCaloriesNA) := by
  constructor
  · simp +decide [cexShapeBCaloriesNA, normalizeSourceB, toNumberOrNull, parseFloatJs,
      validateEntry, List.dropWhile, List.takeWhile]
  · simp +decide [cexShapeBCaloriesNA, normalizeSourceB, unknownOf_validateEntry,
      someNonNumericAfterPlus, typeofUnaryPlus, jsTruthy]

theorem foldl_processNutrient_lastWins {α : Type} (acc : CState → α) (val : Nutrient → α)
    (p : String → Bool)
    (hstep : ∀ st n, acc (processNutrient st n) =
      if p (jsToLowerCase n.key) then val n else acc st)
    (ns : List Nutrient) (st : CState) :
    acc (ns.foldl processNutrient st) =
      ((lastMatchingNutrient p ns).map val).getD (acc st) := by
  induction ns generalizing st with
  | nil => simp [lastMatchingNutrient]
  | cons n t ih =>
    rw [List.foldl_cons, ih (processNutrient st n), hstep st n]
    rcases hfind : lastMatchingNutrient p t with _ | m <;>
      simp only [lastMatchingNutrient, List.reverse_cons, List.find?_append] at hfind ⊢ <;>
      rw [hfind]
    · by_cases hk : p (jsToLowerCase n.key) = true <;> simp [List.find?_cons, hk]
    · simp

/-- C5: for Shape C the last matching entry wins for each of `protein`,
`carbohydrate`/`carbs`, `fat` and `energy`: for every Shape C record, each
canonical macro equals the value of the last nutrient whose lowercased key
matches that macro (defaulting to `0`, or to `null` for calories, when no
entry matches); in particular nutrients `[{protein,10},{protein,12},
{carbs,20},{fat,5},{energy,300}]` normalize to macros
`{protein:12, carbs:20, fat:5}` with declared calories `300`, and since
the expected calories are `4*12+4*20+9*5 = 173` with
`|173-300| = 127 > 173/3`, the validator flags `calories` as
`inconsistent`. -/
theorem shapeC_last_wins_inconsistent :
    (∀ e : SourceCEntry,
      (normalizeSourceC e).macros.protein =
        ((lastMatchingNutrient (fun k => k == "protein") e.nutrients).map
          Nutrient.value).getD (JsNum.fin 0) ∧
      (normalizeSourceC e).macros.carbs =
        ((lastMatchingNutrient (fun k => k == "carbohydrate" || k == "carbs") e.nutrients).map
          Nutrient.value).getD (JsNum.fin 0) ∧
      (normalizeSourceC e).macros.fat =
        ((lastMatchingNutrient (fun k => k == "fat") e.nutrients).map
          Nutrient.value).getD (JsNum.fin 0) ∧
      (normalizeSourceC e).calories =
        (lastMatchingNutrient (fun k => k == "energy") e.nutrients).map Nutrient.value) ∧
    (normalizeSourceC cexShapeCDupNutrients).macros =
      { protein := JsNum.fin 12, carbs := JsNum.fin 20, fat := JsNum.fin 5 } ∧
    (normalizeSourceC cexShapeCDupNutrients).calories = some (JsNum.fin 300) ∧
    Field.calories ∈ inconsistentOf (normalizeSourceC cexShapeCDupNutrients) ∧
    4 * (12 : ℚ) + 4 * 20 + 9 * 5 = 173 ∧
    |(173 : ℚ) - 300| = 127 ∧ (173 : ℚ) / 3 < 127 := by
  refine ⟨?_, ?_, ?_, ?_, by norm_num, by norm_num, by norm_num⟩
  · intro e
    have hstepP : ∀ st n, (processNutrient st n).macros.protein =
        if ((jsToLowerCase n.key == "protein") : Bool) then n.value
        else st.macros.protein := by
      intro st n
      simp only [processNutrient]
      split_ifs with h1 h2 h3 h4 <;> try rcases h2 with h2 | h2
      all_goals simp_all
    have hstepC : ∀ st n, (processNutrient st n).macros.carbs =
        if ((jsToLowerCase n.key == "carbohydrate" || jsToLowerCase n.key == "carbs") : Bool)
        then n.value else st.macros.carbs := by
      intro st n
      simp only [processNutrient]
      split_ifs with h1 h2 h3 h4 <;> try rcases h2 with h2 | h2
      all_goals simp_all
    have hstepF : ∀ st n, (processNutrient st n).macros.fat =
        if ((jsToLowerCase n.key == "fat") : Bool) then n.value else st.macros.fat := by
      intro st n
      simp only [processNutrient]
      split_ifs with h1 h2 h3 h4 <;> try rcases h2 with h2 | h2
      all_goals simp_all
    have hstepE : ∀ st n, (processNutrient st n).calories_kcal =
        if ((jsToLowerCase n.key == "energy") : Bool) then (some n.value : Option JsNum)
        else st.calories_kcal := by
      intro st n
      simp only [processNutrient]
      split_ifs with h1 h2 h3 h4 <;> try rcases h2 with h2 | h2
      all_goals simp_all
    refine ⟨?_, ?_, ?_, ?_⟩
    · exact foldl_processNutrient_lastWins (fun st => st.macros.protein) Nutrient.value
        (fun k => k == "protein") hstepP e.nutrients
        { macros := { protein := JsNum.fin 0, carbs := JsNum.fin 0, fat := JsNum.fin 0 }
          calories_kcal := none
          hasProtein := false, hasCarbs := false, hasFat := false, hasEnergy := false }
    · exact foldl_processNutrient_lastWins (fun st => st.macros.carbs) Nutrient.value
        (fun k => k == "carbohydrate" || k == "carbs") hstepC e.nutrients
        { macros := { protein := JsNum.fin 0, carbs := JsNum.fin 0, fat := JsNum.fin 0 }
          calories_kcal := none
          hasProtein := false, hasCarbs := false, hasFat := false, hasEnergy := false }
    · exact foldl_processNutrient_lastWins (fun st => st.macros.fat) Nutrient.value
        (fun k => k == "fat") hstepF e.nutrients
        { macros := { protein := JsNum.fin 0, carbs := JsNum.fin 0, fat := JsNum.fin 0 }
          calories_kcal := none
          hasProtein := false, hasCarbs := false, hasFat := false, hasEnergy := false }
    · have hE := foldl_processNutrient_lastWins (fun st => st.calories_kcal)
        (fun n => (some n.value : Option JsNum)) (fun k => k == "energy") hstepE e.nutrients
        { macros := { protein := JsNum.fin 0, carbs := JsNum.fin 0, fat := JsNum.fin 0 }
          calories_kcal := none
          hasProtein := false, hasCarbs := false, hasFat := false, hasEnergy := false }
      show ((e.nutrients.foldl processNutrient _).calories_kcal : Option JsNum) = _
      rw [hE]
      rcases lastMatchingNutrient (fun k => k == "energy") e.nutrients with _ | m <;> rfl
  · simp +decide [cexShapeCDupNutrients, normalizeSourceC, processNutrient, jsToLowerCase,
      validateEntry, List.foldl]
  · simp +decide [cexShapeCDupNutrients, normalizeSourceC, processNutrient, jsToLowerCase,
      validateEntry, List.foldl]
  · simp +decide [cexShapeCDupNutrients, normalizeSourceC, processNutrient, jsToLowerCase,
      inconsistentOf_validateEntry, inconsistentChecks, validateCalories, calcCalories,
      JsNum.jmul, JsNum.jadd, JsNum.jsub, JsNum.jneg, JsNum.jabs, JsNum.jdiv3,
      JsNum.jge, JsNum.jle, List.foldl]
    norm_num

end Nutrition
